import Mathlib

/-!
Shallow embedding of `src/main.py` (wallet interrupted-transaction and
Sybil checker).

The embedded core is: the per-transaction record construction and
classification inside `analyze_wallets` (lines 57-95), the counterparty
accumulation (`defaultdict(set)` updated at lines 92-94), the wallet-list
loader `read_wallets` (lines 29-34) and the candidate-table builder
`build_sybil_table` (lines 97-106).  The HTTP fetch layer is an external
collaborator: an analysis input pairs each wallet address with the list of
raw records the fetcher returned for it.

Conventions:
* A raw Etherscan record is a JSON object whose keys may be absent;
  `tx.get(k)` yielding Python `None` is modelled by `Option.none`.
* Python exceptions escaping a function are modelled by an `Option`
  result, `none` meaning the exception propagated.
* Python string primitives (`strip`, `startswith`, `lower`, `int()`,
  lexicographic `sorted`) are modelled by structural functions over
  `String.data`, so that every definition evaluates inside the kernel.
  The `lower` model covers ASCII letters, which is exact for the hex
  address strings this program handles.
* A Python `dict` (insertion-ordered) is modelled by an association list:
  updating an existing key rewrites it in place, a new key is appended.
* A Python `set` is modelled by a duplicate-free list in insertion order;
  `len` is the list length and `sorted` is lexicographic sorting.
* Python float division `value / 10**18` is modelled exactly over `ℚ`
  (the integer numerator is what the record stores here).
-/

namespace AddrCheck

/-- Python's default `str.strip` whitespace set (space, `\t`, `\n`, `\r`,
vertical tab, form feed) restricted to ASCII. -/
def pySpace (c : Char) : Bool :=
  c.toNat = 32 || (9 ≤ c.toNat && c.toNat ≤ 13)

/-- Python `s.strip()`: drop leading and trailing whitespace. -/
def pyStrip (s : String) : String :=
  ⟨(((s.data.dropWhile pySpace).reverse.dropWhile pySpace).reverse)⟩

/-- Python `s.startswith(p)`. -/
def pyStartsWith (s p : String) : Bool :=
  p.data.isPrefixOf s.data

/-- ASCII lowercasing of one character (`A`-`Z` shifted by 32). -/
def lowerChar (c : Char) : Char :=
  if 65 ≤ c.toNat ∧ c.toNat ≤ 90 then Char.ofNat (c.toNat + 32) else c

/-- Python `s.lower()` on ASCII strings (hex addresses are ASCII). -/
def pyLower (s : String) : String :=
  ⟨s.data.map lowerChar⟩

/-- Decimal digit run to a number; `none` when empty or a non-digit
appears. -/
def digitsToNat (l : List Char) : Option Nat :=
  match l with
  | [] => none
  | _ =>
    l.foldl
      (fun acc c =>
        acc.bind fun n => if c.isDigit then some (n * 10 + (c.toNat - 48)) else none)
      (some 0)

/-- Python's `int(s)` on a decimal string, as applied to the Etherscan
`value` field (line 76): surrounding whitespace is ignored, an optional
sign may precede the digits; `none` models the `ValueError` raised on
anything else.  (Python's underscore digit grouping is not modelled; the
Etherscan value strings are plain digit runs.) -/
def pyInt (s : String) : Option Int :=
  match (pyStrip s).data with
  | '-' :: rest => (digitsToNat rest).map (fun n => -(n : Int))
  | '+' :: rest => (digitsToNat rest).map (fun n => (n : Int))
  | l => (digitsToNat l).map (fun n => (n : Int))

/-- Code-point comparison of strings, Python's `<=` on `str` for ASCII:
the order `sorted` uses. -/
def charListLe (a b : List Char) : Bool :=
  match a, b with
  | [], _ => true
  | _ :: _, [] => false
  | x :: xs, y :: ys =>
    if x.toNat < y.toNat then true
    else if y.toNat < x.toNat then false
    else charListLe xs ys

/-- Lexicographic `<=` on strings by code point. -/
def strLe (a b : String) : Bool :=
  charListLe a.data b.data

/-- Insert into a `strLe`-sorted list, keeping it sorted. -/
def insertSorted (x : String) : List String → List String
  | [] => [x]
  | y :: ys => if strLe x y then x :: y :: ys else y :: insertSorted x ys

/-- Python `sorted` on a list of strings (insertion sort). -/
def sortStrings (l : List String) : List String :=
  l.foldr insertSorted []

/-- A raw transaction record as returned by the Etherscan `txlist`
endpoint (`tx` in the loop of `analyze_wallets`).  Every field is a JSON
string that may be absent; `none` models a missing key, so `tx.get k`
is the field itself. -/
structure RawTx where
  hash : Option String := none
  fromAddr : Option String := none
  toAddr : Option String := none
  value : Option String := none
  gas : Option String := none
  gasPrice : Option String := none
  isError : Option String := none
  txreceipt_status : Option String := none
  blockNumber : Option String := none
  timeStamp : Option String := none
deriving Repr, DecidableEq

/-- `int(tx.get("value", "0"))` of line 76: a missing key defaults to the
string `"0"`; `none` models the `ValueError` that aborts the analysis. -/
def normalizeValue (tx : RawTx) : Option Int :=
  pyInt (tx.value.getD "0")

/-- The normalized transaction entity: the `tx_record` dict built at lines
71-83 of `analyze_wallets`.  `valueNum` is the integer result of
`int(tx.get("value","0"))`; the stored Python float is
`valueNum / 10**18`, recovered exactly by `TxRecord.valueEth`. -/
structure TxRecord where
  wallet : String
  hash : Option String
  fromAddr : Option String
  toAddr : Option String
  valueNum : Int
  gas : Option String
  gasPrice : Option String
  isError : Option String
  txreceipt_status : Option String
  blockNumber : Option String
  timeStamp : Option String
deriving Repr, DecidableEq

/-- The `"value"` entry of `tx_record`: `int(...) / 10**18`, modelled
exactly over `ℚ` instead of binary floating point. -/
def TxRecord.valueEth (r : TxRecord) : ℚ :=
  (r.valueNum : ℚ) / 10 ^ 18

/-- Lines 71-83: the `tx_record` dict for owning wallet `w`, given the
already-parsed integer value `v`. -/
def mkTxRecord (w : String) (tx : RawTx) (v : Int) : TxRecord :=
  { wallet := w
    hash := tx.hash
    fromAddr := tx.fromAddr
    toAddr := tx.toAddr
    valueNum := v
    gas := tx.gas
    gasPrice := tx.gasPrice
    isError := tx.isError
    txreceipt_status := tx.txreceipt_status
    blockNumber := tx.blockNumber
    timeStamp := tx.timeStamp }

/-- The classifier of line 88:
`tx_record["isError"] == "1" or tx_record["txreceipt_status"] == "0"`.
A `none` field (missing key) compares unequal to any string, as Python's
`None == "1"` is `False`. -/
def interruptedFlag (r : TxRecord) : Bool :=
  r.isError == some "1" || r.txreceipt_status == some "0"

/-- Add to a Python set modelled as a duplicate-free list:
`s.add(x)` is a no-op when `x` is already present. -/
def setAdd (l : List String) (x : String) : List String :=
  if x ∈ l then l else l ++ [x]

/-- `counterparties[key].add(wal)` on `counterparties = defaultdict(set)`
(line 59), the dict being an insertion-ordered association list: the
first entry carrying `key` is updated in place; a missing key is appended
at the end holding the singleton set. -/
def dictAdd (cps : List (String × List String)) (key wal : String) :
    List (String × List String) :=
  match cps with
  | [] => [(key, [wal])]
  | (k, s) :: rest =>
    if k = key then (k, setAdd s wal) :: rest else (k, s) :: dictAdd rest key wal

/-- Dict lookup `counterparties[a]` as a set value: the first entry with
key `a`, or the empty set when `a` is absent (a `defaultdict(set)` access
materialises exactly the empty set there). -/
def cpGet (cps : List (String × List String)) (a : String) : List String :=
  match cps with
  | [] => []
  | (k, s) :: rest => if k = a then s else cpGet rest a

/-- One candidate step of the loop at lines 92-94:
`if cp and cp.lower() != w.lower(): counterparties[cp.lower()].add(w.lower())`.
`cp = none` (missing key) and `cp = some ""` are both falsy in Python. -/
def addCand (w : String) (cp : Option String)
    (cps : List (String × List String)) : List (String × List String) :=
  match cp with
  | none => cps
  | some c =>
    if c ≠ "" ∧ pyLower c ≠ pyLower w then dictAdd cps (pyLower c) (pyLower w)
    else cps

/-- The skip test of line 93 seen from the other side: a candidate
contributes nothing when it is absent, empty, or lowercases to the owning
wallet's lowercased address. -/
def skipCand (w : String) (cp : Option String) : Bool :=
  match cp with
  | none => true
  | some c => c == "" || pyLower c == pyLower w

/-- `candHits w cp a = true` iff candidate `cp` of a transaction owned by
wallet `w` passes the line-93 test and lands on dict key `a`. -/
def candHits (w : String) (cp : Option String) (a : String) : Bool :=
  match cp with
  | none => false
  | some c => (!(c == "")) && (!(pyLower c == pyLower w)) && (pyLower c == a)

/-- `txContribB w tx a w2 = true` iff processing raw record `tx` for
owning wallet `w` adds wallet `w2` to the counterparty set of dict key
`a`: one of `from`/`to` hits `a` and `w2` is `w.lower()`. -/
def txContribB (w : String) (tx : RawTx) (a w2 : String) : Bool :=
  (candHits w tx.fromAddr a || candHits w tx.toAddr a) && (w2 == pyLower w)

/-- The mutable state of `analyze_wallets` (lines 58-60): the per-wallet
interrupted lists (`defaultdict(list)`, modelled extensionally — a missing
wallet key reads as `[]`), the counterparty dict, and `all_txs`. -/
structure AnalysisState where
  interrupted : String → List TxRecord
  counterparties : List (String × List String)
  all_txs : List TxRecord

/-- The state on entry to the wallet loop: everything empty. -/
def initState : AnalysisState :=
  { interrupted := fun _ => [], counterparties := [], all_txs := [] }

/-- The body of the inner loop `for tx in txs` (lines 69-94): build
`tx_record`, append it to `all_txs`, append to `interrupted[w]` when the
line-88 test fires, and run the candidate loop over `(from, to)`.
`none` models the `ValueError` from `int()` propagating out. -/
def processTx (w : String) (st : AnalysisState) (tx : RawTx) :
    Option AnalysisState :=
  (normalizeValue tx).map fun v =>
    let r := mkTxRecord w tx v
    { all_txs := st.all_txs ++ [r]
      interrupted :=
        if interruptedFlag r then
          fun x => if x = w then st.interrupted x ++ [r] else st.interrupted x
        else st.interrupted
      counterparties := addCand w r.toAddr (addCand w r.fromAddr st.counterparties) }

/-- One iteration of the outer loop `for w in wallets`: fold the inner
loop over the raw records the fetcher returned for that wallet.  (A fetch
failure degrades the list to `[]` before this point, per lines 63-67.) -/
def processWallet (st : AnalysisState) (p : String × List RawTx) :
    Option AnalysisState :=
  p.2.foldlM (processTx p.1) st

/-- `analyze_wallets` (lines 57-95) on pre-fetched input: each wallet of
the input list paired with its raw transaction stream. -/
def analyze_wallets (input : List (String × List RawTx)) :
    Option AnalysisState :=
  input.foldlM processWallet initState

/-- `read_wallets` (lines 29-34) over the file's lines: keep lines whose
stripped text is nonempty and whose raw text does not start with `#`,
strip them, and prepend `0x` to any address that lacks it. -/
def read_wallets (lines : List String) : List String :=
  let addrs :=
    (lines.filter (fun line => pyStrip line ≠ "" ∧ pyStartsWith line "#" = false)).map
      pyStrip
  addrs.map (fun a => if pyStartsWith a "0x" then a else "0x" ++ a)

/-- One row of the Sybil candidate table (line 101). -/
structure SybilRow where
  address : String
  wallet_count : Nat
  wallets : String
deriving Repr, DecidableEq

/-- `",".join(sorted(wallets))` of line 101. -/
def joinWallets (s : List String) : String :=
  String.intercalate "," (sortStrings s)

/-- `build_sybil_table` (lines 97-106): one row per counterparty whose
wallet set has at least `threshold` elements, in dict iteration order.
The final `pandas.sort_values(by="wallet_count", ascending=False)` merely
permutes the rows using an external, unstable sort keyed on
`wallet_count` alone; that reordering is not modelled here, so this list
carries the rows in generation order. -/
def build_sybil_table (cps : List (String × List String)) (threshold : Int) :
    List SybilRow :=
  (cps.filter (fun p => threshold ≤ (p.2.length : Int))).map
    (fun p => { address := p.1, wallet_count := p.2.length, wallets := joinWallets p.2 })

/-- The first transaction of the end-to-end scenario of the design notes:
fetched for wallet `0xAAA`, `from=0xAAA`, `to=0xCCC`, `isError="1"`. -/
def txScenario1 : RawTx :=
  { fromAddr := some "0xAAA", toAddr := some "0xCCC", isError := some "1" }

/-- The second scenario transaction: fetched for wallet `0xBBB`,
`from=0xCCC`, `to=0xBBB`, `isError="0"`, `txreceipt_status="1"`. -/
def txScenario2 : RawTx :=
  { fromAddr := some "0xCCC", toAddr := some "0xBBB", isError := some "0"
    txreceipt_status := some "1" }

/-- The scenario input: wallets `["0xAAA", "0xBBB"]` with their fetched
streams. -/
def scenarioInput : List (String × List RawTx) :=
  [("0xAAA", [txScenario1]), ("0xBBB", [txScenario2])]

/-- The scenario input with the two wallets processed in the opposite
order. -/
def scenarioSwapped : List (String × List RawTx) :=
  [("0xBBB", [txScenario2]), ("0xAAA", [txScenario1])]

/-- The analysis run on the scenario input. -/
def runScenario : Option AnalysisState :=
  analyze_wallets scenarioInput

/-- A self-transaction: `from == to ==` the owning wallet `0xAAA`. -/
def txSelf : RawTx :=
  { fromAddr := some "0xAAA", toAddr := some "0xAAA" }

/-- The normalized record of `txSelf` for wallet `0xAAA` (its missing
value parses as 0). -/
def rSelf : TxRecord := mkTxRecord "0xAAA" txSelf 0

/-- The state after processing `txSelf` from the empty state: the record
lands in `all_txs` and nothing else changes. -/
def stSelf : AnalysisState :=
  { interrupted := fun _ => [], counterparties := [], all_txs := [rSelf] }

/-- A transaction fetched for wallet `0xBBB` whose recipient is the other
input wallet `0xAAA`. -/
def txCross : RawTx :=
  { fromAddr := some "0xBBB", toAddr := some "0xAAA" }

/-- Input where one input wallet appears as the counterparty of another
input wallet's transaction. -/
def inputCross : List (String × List RawTx) :=
  [("0xAAA", []), ("0xBBB", [txCross])]

/-- A counterparty index with one two-wallet counterparty and one
one-wallet counterparty, used to exercise the threshold boundary. -/
def cpsBoundary : List (String × List String) :=
  [("0xccc", ["0xaaa", "0xbbb"]), ("0xddd", ["0xaaa"])]

/-! ## Helper lemmas: membership in the counterparty dict -/

/-- Membership after a set `add`. -/
theorem mem_setAdd (l : List String) (x y : String) :
    x ∈ setAdd l y ↔ x ∈ l ∨ x = y := by
  by_cases h : y ∈ l
  · simp only [setAdd, if_pos h]
    exact ⟨Or.inl, fun hx => hx.elim id (fun e => e ▸ h)⟩
  · simp [setAdd, if_neg h]

/-- Membership in a dict value after `dictAdd`: only the set at `key`
gains `v`, everything else is untouched. -/
theorem cpGet_dictAdd_mem (cps : List (String × List String)) (k v a x : String) :
    x ∈ cpGet (dictAdd cps k v) a ↔ x ∈ cpGet cps a ∨ (k = a ∧ x = v) := by
  induction cps with
  | nil =>
    by_cases h : k = a <;> simp [dictAdd, cpGet, h]
  | cons p rest ih =>
    obtain ⟨pk, ps⟩ := p
    by_cases hk : pk = k
    · subst hk
      by_cases ha : pk = a
      · subst ha
        simp [dictAdd, cpGet, mem_setAdd]
      · have hka : ¬ pk = a := ha
        simp [dictAdd, cpGet, hka]
    · by_cases ha : pk = a
      · subst ha
        have hka : ¬ k = pk := fun e => hk e.symm
        simp [dictAdd, cpGet, hk, hka]
      · simp [dictAdd, cpGet, hk, ha, ih]

/-- Membership after one candidate step: the step adds `w.lower()` to the
set at key `a` exactly when `candHits` fires. -/
theorem cpGet_addCand_mem (w : String) (cp : Option String)
    (cps : List (String × List String)) (a x : String) :
    x ∈ cpGet (addCand w cp cps) a ↔
      x ∈ cpGet cps a ∨ (candHits w cp a = true ∧ x = pyLower w) := by
  cases cp with
  | none => simp [addCand, candHits]
  | some c =>
    by_cases h : c ≠ "" ∧ pyLower c ≠ pyLower w
    · rw [addCand, if_pos h, cpGet_dictAdd_mem]
      have hc : candHits w (some c) a = (pyLower c == a) := by
        simp [candHits, h.1, h.2]
      rw [hc]
      simp [beq_iff_eq]
    · rw [addCand, if_neg h]
      have hc : candHits w (some c) a = false := by
        rcases Decidable.not_and_iff_or_not.mp h with h1 | h2
        · simp only [Ne, Decidable.not_not] at h1
          simp [candHits, h1]
        · simp only [Ne, Decidable.not_not] at h2
          simp [candHits, h2]
      simp [hc]

/-- A candidate that fails the line-93 test leaves the dict unchanged. -/
theorem addCand_of_skip (w : String) (cp : Option String)
    (cps : List (String × List String)) (h : skipCand w cp = true) :
    addCand w cp cps = cps := by
  cases cp with
  | none => rfl
  | some c =>
    simp only [skipCand, Bool.or_eq_true, beq_iff_eq] at h
    rw [addCand, if_neg]
    rintro ⟨h1, h2⟩
    rcases h with h | h
    · exact h1 h
    · exact h2 h

/-- Membership in the counterparty dict after one transaction of wallet
`w`: exactly the old members plus the `txContribB` contribution. -/
theorem processTx_some_cp {w : String} {st : AnalysisState} {tx : RawTx}
    {st2 : AnalysisState} (h : processTx w st tx = some st2) (a x : String) :
    x ∈ cpGet st2.counterparties a ↔
      x ∈ cpGet st.counterparties a ∨ txContribB w tx a x = true := by
  rw [processTx, Option.map_eq_some'] at h
  obtain ⟨v, hv, hst⟩ := h
  subst hst
  show x ∈ cpGet (addCand w tx.toAddr (addCand w tx.fromAddr st.counterparties)) a ↔ _
  rw [cpGet_addCand_mem, cpGet_addCand_mem]
  simp only [txContribB, Bool.and_eq_true, Bool.or_eq_true, beq_iff_eq]
  tauto

/-- `processTx` succeeds exactly when `int()` does on the value field. -/
theorem processTx_isSome (w : String) (st : AnalysisState) (tx : RawTx) :
    (processTx w st tx).isSome = (normalizeValue tx).isSome := by
  rw [processTx, Option.isSome_map']

/-- Folding the inner loop over a transaction stream: membership in the
final dict is the initial membership plus the contribution of any
transaction of the stream. -/
theorem foldl_txs_cp (w : String) (txs : List RawTx) :
    ∀ st st2 : AnalysisState, txs.foldlM (processTx w) st = some st2 →
      ∀ a x : String,
        (x ∈ cpGet st2.counterparties a ↔
          x ∈ cpGet st.counterparties a ∨ ∃ tx ∈ txs, txContribB w tx a x = true) := by
  induction txs with
  | nil =>
    intro st st2 h a x
    simp only [List.foldlM_nil] at h
    cases h
    simp
  | cons t ts ih =>
    intro st st2 h a x
    rw [List.foldlM_cons] at h
    cases hm : processTx w st t with
    | none => rw [hm] at h; cases h
    | some mid =>
      rw [hm] at h
      simp only [Option.bind_eq_bind, Option.some_bind] at h
      rw [ih mid st2 h a x, processTx_some_cp hm a x]
      simp only [List.mem_cons]
      constructor
      · rintro ((hbase | hone) | ⟨tx, htx, hc⟩)
        · exact Or.inl hbase
        · exact Or.inr ⟨t, Or.inl rfl, hone⟩
        · exact Or.inr ⟨tx, Or.inr htx, hc⟩
      · rintro (hbase | ⟨tx, rfl | htx, hc⟩)
        · exact Or.inl (Or.inl hbase)
        · exact Or.inl (Or.inr hc)
        · exact Or.inr ⟨tx, htx, hc⟩

/-- Inner-loop success over a stream: every value field must parse. -/
theorem foldl_txs_isSome (w : String) (txs : List RawTx) :
    ∀ st : AnalysisState,
      (txs.foldlM (processTx w) st).isSome =
        txs.all (fun tx => (normalizeValue tx).isSome) := by
  induction txs with
  | nil => intro st; simp
  | cons t ts ih =>
    intro st
    rw [List.foldlM_cons]
    cases hm : processTx w st t with
    | none =>
      have hv : (normalizeValue t).isSome = false := by
        rw [← processTx_isSome w st t, hm]; rfl
      simp [hv]
    | some mid =>
      have hv : (normalizeValue t).isSome = true := by
        rw [← processTx_isSome w st t, hm]; rfl
      simp [hv, ih mid]

/-- Folding the outer loop over the wallet list: membership in the final
dict is the initial membership plus any wallet's stream contribution. -/
theorem foldl_wallets_cp (input : List (String × List RawTx)) :
    ∀ st st2 : AnalysisState, input.foldlM processWallet st = some st2 →
      ∀ a x : String,
        (x ∈ cpGet st2.counterparties a ↔
          x ∈ cpGet st.counterparties a ∨
            ∃ p ∈ input, ∃ tx ∈ p.2, txContribB p.1 tx a x = true) := by
  induction input with
  | nil =>
    intro st st2 h a x
    simp only [List.foldlM_nil] at h
    cases h
    simp
  | cons p ps ih =>
    intro st st2 h a x
    rw [List.foldlM_cons] at h
    cases hm : processWallet st p with
    | none => rw [hm] at h; cases h
    | some mid =>
      rw [hm] at h
      simp only [Option.bind_eq_bind, Option.some_bind] at h
      rw [ih mid st2 h a x, foldl_txs_cp p.1 p.2 st mid hm a x]
      simp only [List.mem_cons]
      constructor
      · rintro ((hbase | hone) | ⟨q, hq, rest⟩)
        · exact Or.inl hbase
        · exact Or.inr ⟨p, Or.inl rfl, hone⟩
        · exact Or.inr ⟨q, Or.inr hq, rest⟩
      · rintro (hbase | ⟨q, rfl | hq, rest⟩)
        · exact Or.inl (Or.inl hbase)
        · exact Or.inl (Or.inr rest)
        · exact Or.inr ⟨q, hq, rest⟩

/-- Outer-loop success: every value field of every stream must parse. -/
theorem foldl_wallets_isSome (input : List (String × List RawTx)) :
    ∀ st : AnalysisState,
      (input.foldlM processWallet st).isSome =
        input.all (fun p => p.2.all fun tx => (normalizeValue tx).isSome) := by
  induction input with
  | nil => intro st; simp
  | cons p ps ih =>
    intro st
    rw [List.foldlM_cons]
    cases hm : processWallet st p with
    | none =>
      have hv : p.2.all (fun tx => (normalizeValue tx).isSome) = false := by
        rw [← foldl_txs_isSome p.1 p.2 st]
        show (processWallet st p).isSome = false
        rw [hm]; rfl
      simp [hv]
    | some mid =>
      have hv : p.2.all (fun tx => (normalizeValue tx).isSome) = true := by
        rw [← foldl_txs_isSome p.1 p.2 st]
        show (processWallet st p).isSome = true
        rw [hm]; rfl
      simp [hv, ih mid]

/-- Membership in the final counterparty dict of a successful analysis:
exactly the wallets some transaction of the input contributes. -/
theorem analyze_wallets_cp {input : List (String × List RawTx)}
    {st2 : AnalysisState} (h : analyze_wallets input = some st2) (a x : String) :
    x ∈ cpGet st2.counterparties a ↔
      ∃ p ∈ input, ∃ tx ∈ p.2, txContribB p.1 tx a x = true := by
  have hmain := foldl_wallets_cp input initState st2 h a x
  simpa [initState, cpGet] using hmain

/-- Success of the whole analysis: every value field parses. -/
theorem analyze_wallets_isSome (input : List (String × List RawTx)) :
    (analyze_wallets input).isSome =
      input.all (fun p => p.2.all fun tx => (normalizeValue tx).isSome) :=
  foldl_wallets_isSome input initState

/-- With duplicate-free keys, two dict entries sharing a key are the same
entry. -/
theorem entry_eq_of_keys_nodup :
    ∀ cps : List (String × List String), (cps.map Prod.fst).Nodup →
      ∀ p ∈ cps, ∀ q ∈ cps, p.1 = q.1 → p = q := by
  intro cps
  induction cps with
  | nil => intro _ p hp; cases hp
  | cons hd rest ih =>
    intro hnd p hp q hq hpq
    rw [List.map_cons, List.nodup_cons] at hnd
    rcases List.mem_cons.mp hp with rfl | hp2 <;>
      rcases List.mem_cons.mp hq with rfl | hq2
    · rfl
    · exact absurd (List.mem_map.mpr ⟨q, hq2, hpq.symm⟩) hnd.1
    · exact absurd (List.mem_map.mpr ⟨p, hp2, hpq⟩) hnd.1
    · exact ih hnd.2 p hp2 q hq2 hpq

/-! ## Claim theorems -/

/-- C1: a transaction record is classified interrupted exactly when its
`isError` field is the string `"1"` or its `txreceipt_status` field is the
string `"0"`; in particular a record whose two fields are both absent, or
both empty strings, is not interrupted, and one with `isError="0"` and
`txreceipt_status="1"` is not interrupted. -/
theorem classifier_interrupted_iff :
    (∀ r : TxRecord,
        interruptedFlag r = true ↔
          (r.isError = some "1" ∨ r.txreceipt_status = some "0")) ∧
      interruptedFlag (mkTxRecord "0xaaa" {} 0) = false ∧
      interruptedFlag
          (mkTxRecord "0xaaa" { isError := some "", txreceipt_status := some "" } 0) =
        false ∧
      interruptedFlag
          (mkTxRecord "0xaaa" { isError := some "0", txreceipt_status := some "1" } 0) =
        false := by
  refine ⟨fun r => ?_, by decide, by decide, by decide⟩
  simp [interruptedFlag]

/-- C2: processing a permutation of the wallet list yields the same
counterparty index, pointwise: for every counterparty key and every
wallet string, membership of the wallet in that counterparty's set is the
same for both processing orders (and the permuted run succeeds whenever
the original does). -/
theorem counterparty_index_perm_invariant (l1 l2 : List (String × List RawTx))
    (hperm : l1.Perm l2) (hs : (analyze_wallets l1).isSome = true) (a x : String) :
    (analyze_wallets l1).map (fun s => (cpGet s.counterparties a).contains x) =
      (analyze_wallets l2).map (fun s => (cpGet s.counterparties a).contains x) := by
  have hs2 : (analyze_wallets l2).isSome = true := by
    rw [analyze_wallets_isSome, List.all_eq_true] at hs ⊢
    exact fun p hp => hs p (hperm.mem_iff.mpr hp)
  obtain ⟨s1, e1⟩ := Option.isSome_iff_exists.mp hs
  obtain ⟨s2, e2⟩ := Option.isSome_iff_exists.mp hs2
  rw [e1, e2, Option.map_some', Option.map_some', Option.some.injEq]
  have hmem : (x ∈ cpGet s1.counterparties a) ↔ (x ∈ cpGet s2.counterparties a) := by
    rw [analyze_wallets_cp e1 a x, analyze_wallets_cp e2 a x]
    constructor
    · rintro ⟨p, hp, rest⟩
      exact ⟨p, hperm.mem_iff.mp hp, rest⟩
    · rintro ⟨p, hp, rest⟩
      exact ⟨p, hperm.mem_iff.mpr hp, rest⟩
  simp only [List.contains, List.elem_eq_mem, decide_eq_decide]
  exact hmem

/-- C2 witness: the two-wallet scenario input and its reversal are a
permutation pair on which the analysis succeeds, and the counterparty set
of `0xccc` answers membership of `0xbbb` identically in both orders. -/
theorem counterparty_index_perm_invariant_witness :
    scenarioInput.Perm scenarioSwapped ∧
      (analyze_wallets scenarioInput).map
          (fun s => (cpGet s.counterparties "0xccc").contains "0xbbb") =
        (analyze_wallets scenarioSwapped).map
          (fun s => (cpGet s.counterparties "0xccc").contains "0xbbb") :=
  ⟨by decide,
    counterparty_index_perm_invariant scenarioInput scenarioSwapped (by decide) rfl
      "0xccc" "0xbbb"⟩

/-- C3 counterexample: a record whose `value` field is present but not an
integer string makes normalization raise (`int("abc")` is a
`ValueError`), so the loop body fails instead of producing a record with
`valueEth = 0`. -/
theorem value_unparseable_raises :
    normalizeValue { value := some "abc" } = none ∧
      processTx "0xaaa" initState { value := some "abc" } = none :=
  ⟨rfl, rfl⟩

/-- C3 amended: a missing `value` field never raises: `tx.get` substitutes
the string `"0"`, which parses to the integer 0, the loop body succeeds
and the stored `valueEth` is 0.  (A present-but-unparseable value, by
contrast, raises — see the counterexample.) -/
theorem value_missing_defaults_zero :
    (∀ tx : RawTx, tx.value = none → normalizeValue tx = some 0) ∧
      (∀ (w : String) (st : AnalysisState) (tx : RawTx), tx.value = none →
        (processTx w st tx).isSome = true) ∧
      (∀ (w : String) (tx : RawTx), (mkTxRecord w tx 0).valueEth = 0) := by
  refine ⟨fun tx h => ?_, fun w st tx h => ?_, fun w tx => ?_⟩
  · rw [normalizeValue, h]
    decide
  · rw [processTx_isSome, normalizeValue, h]
    decide
  · simp [TxRecord.valueEth, mkTxRecord]

/-- C3 witness: the record with every field absent has no `value` key;
normalization yields the integer 0, processing succeeds, and the
normalized record's `valueEth` is 0. -/
theorem value_missing_defaults_zero_witness :
    ({} : RawTx).value = none ∧
      normalizeValue {} = some 0 ∧
      (processTx "0xaaa" initState {}).isSome = true ∧
      (mkTxRecord "0xaaa" {} 0).valueEth = 0 :=
  ⟨rfl, value_missing_defaults_zero.1 {} rfl,
    value_missing_defaults_zero.2.1 "0xaaa" initState {} rfl,
    value_missing_defaults_zero.2.2 "0xaaa" {}⟩

/-- C4: for a counterparty index with duplicate-free keys and set values,
and any threshold `t ≥ 1`, the Sybil table contains a row for a
counterparty exactly when its wallet set has at least `t` elements; and
the empty index yields the empty (non-error) table. -/
theorem sybil_threshold_membership (cps : List (String × List String)) (t : Int)
    (_ht : 1 ≤ t) (hkeys : (cps.map Prod.fst).Nodup)
    (_hsets : ∀ p ∈ cps, p.2.Nodup) :
    (∀ p ∈ cps,
        (((build_sybil_table cps t).any fun r => r.address == p.1) = true ↔
          t ≤ (p.2.length : Int))) ∧
      build_sybil_table [] t = [] := by
  refine ⟨fun p hp => ⟨fun h => ?_, fun h => ?_⟩, rfl⟩
  · rw [List.any_eq_true] at h
    obtain ⟨r, hr, hraddr⟩ := h
    rw [build_sybil_table, List.mem_map] at hr
    obtain ⟨q, hq, rfl⟩ := hr
    rw [List.mem_filter] at hq
    rw [beq_iff_eq] at hraddr
    have hqp : q = p := entry_eq_of_keys_nodup cps hkeys q hq.1 p hp hraddr
    subst hqp
    simpa using hq.2
  · rw [List.any_eq_true]
    refine ⟨{ address := p.1, wallet_count := p.2.length, wallets := joinWallets p.2 },
      ?_, by simp⟩
    rw [build_sybil_table, List.mem_map]
    exact ⟨p, List.mem_filter.mpr ⟨hp, by simpa using h⟩, rfl⟩

/-- C4 witness: on an index holding `0xccc` with two wallets and `0xddd`
with one, at threshold 2 the boundary behaves as claimed: `0xccc`
(exactly `t` wallets) is in the table and `0xddd` (exactly `t - 1`) is
not. -/
theorem sybil_threshold_membership_witness :
    (1 : Int) ≤ 2 ∧ (cpsBoundary.map Prod.fst).Nodup ∧
      ((build_sybil_table cpsBoundary 2).any fun r => r.address == "0xccc") = true ∧
      ((build_sybil_table cpsBoundary 2).any fun r => r.address == "0xddd") = false :=
  ⟨by decide, by decide,
    ((sybil_threshold_membership cpsBoundary 2 (by decide) (by decide)
            (by decide)).1
        ("0xccc", ["0xaaa", "0xbbb"]) (by decide)).mpr (by decide),
    by decide⟩

/-- C5 counterexample: at threshold 0 the selector does not fail with any
configuration error — `build_sybil_table` returns an ordinary candidate
table, and even a counterparty seen by a single wallet is included. -/
theorem threshold_zero_yields_candidate_table :
    build_sybil_table [("0xccc", ["0xaaa"])] 0 =
      [{ address := "0xccc", wallet_count := 1, wallets := "0xaaa" }] := by
  decide

/-- C5 amended: a threshold of 0 or negative is not rejected: the code has
no `InvalidConfiguration` path and no validation, so `build_sybil_table`
simply includes every counterparty of the index (the comparison
`len(wallets) >= threshold` is vacuously true); `main` runs all fetches
before the threshold is ever consulted. -/
theorem threshold_nonpositive_includes_all (cps : List (String × List String))
    (t : Int) (h : t ≤ 0) :
    build_sybil_table cps t =
      cps.map fun p =>
        { address := p.1, wallet_count := p.2.length, wallets := joinWallets p.2 } := by
  rw [build_sybil_table]
  congr 1
  rw [List.filter_eq_self]
  intro p hp
  simp only [decide_eq_true_eq]
  exact le_trans h (Int.natCast_nonneg _)

/-- C5 witness: at threshold `-1` the table over a one-entry index is the
full row list of that index. -/
theorem threshold_nonpositive_includes_all_witness :
    (-1 : Int) ≤ 0 ∧
      build_sybil_table [("0xccc", ["0xaaa"])] (-1) =
        [("0xccc", ["0xaaa"])].map
          (fun p =>
            { address := p.1, wallet_count := p.2.length,
              wallets := joinWallets p.2 : SybilRow }) :=
  ⟨by decide, threshold_nonpositive_includes_all [("0xccc", ["0xaaa"])] (-1) (by decide)⟩

/-- C6: a transaction both of whose candidate addresses fail the line-93
test — absent/empty, or lowercasing to the owning wallet's lowercased
address — leaves the counterparty dict exactly as it was; in particular a
`from == to == wallet` self-transaction contributes no entry. -/
theorem skipped_candidates_contribute_nothing (w : String) (st : AnalysisState)
    (tx : RawTx) (st2 : AnalysisState) (hrun : processTx w st tx = some st2)
    (hf : skipCand w tx.fromAddr = true) (ht : skipCand w tx.toAddr = true) :
    st2.counterparties = st.counterparties := by
  rw [processTx, Option.map_eq_some'] at hrun
  obtain ⟨v, hv, hst⟩ := hrun
  subst hst
  show addCand w tx.toAddr (addCand w tx.fromAddr st.counterparties) =
    st.counterparties
  rw [addCand_of_skip w tx.fromAddr st.counterparties hf,
    addCand_of_skip w tx.toAddr st.counterparties ht]

/-- C6 witness: the self-transaction `from = to = "0xAAA"` processed for
wallet `0xAAA` passes both skip tests and leaves the (empty) counterparty
dict empty. -/
theorem skipped_candidates_contribute_nothing_witness :
    processTx "0xAAA" initState txSelf = some stSelf ∧
      skipCand "0xAAA" txSelf.fromAddr = true ∧
      skipCand "0xAAA" txSelf.toAddr = true ∧
      stSelf.counterparties = initState.counterparties :=
  ⟨rfl, by decide, by decide,
    skipped_candidates_contribute_nothing "0xAAA" initState txSelf stSelf rfl
      (by decide) (by decide)⟩

/-- C7 counterexample: the loader does not lowercase: the input line
`"0xAAA"` is returned as `"0xAAA"`, which differs from its lowercase
form, so the returned wallet strings are not canonical lowercase. -/
theorem read_wallets_keeps_case :
    read_wallets ["0xAAA"] = ["0xAAA"] ∧ pyLower "0xAAA" ≠ "0xAAA" := by
  decide

/-- C7 amended: the loader ignores whitespace-only lines and lines whose
raw text starts with `#`; every kept line is stripped and receives a
`0x` prefix when its stripped text lacks one; the letter case of the
input is preserved (no lowercasing happens in the loader — lowercase
normalization occurs only at the comparison and storage points of the
analysis). -/
theorem read_wallets_characterization :
    read_wallets [] = [] ∧
      (∀ (l : String) (rest : List String),
        (pyStrip l = "" ∨ pyStartsWith l "#" = true) →
          read_wallets (l :: rest) = read_wallets rest) ∧
      (∀ (l : String) (rest : List String),
        pyStrip l ≠ "" → pyStartsWith l "#" = false →
          read_wallets (l :: rest) =
            (if pyStartsWith (pyStrip l) "0x" then pyStrip l
              else "0x" ++ pyStrip l) :: read_wallets rest) := by
  refine ⟨rfl, fun l rest h => ?_, fun l rest h1 h2 => ?_⟩
  · have hcond : ¬ (pyStrip l ≠ "" ∧ pyStartsWith l "#" = false) := by
      rcases h with h | h
      · exact fun hc => hc.1 h
      · intro hc
        rw [h] at hc
        exact Bool.noConfusion hc.2
    simp [read_wallets, List.filter_cons, hcond]
  · simp [read_wallets, List.filter_cons, h1, h2]

/-- C7 witness: a `#` line is dropped, and the kept line `" aBc "` is
stripped and prefixed, case intact. -/
theorem read_wallets_characterization_witness :
    pyStartsWith "# note" "#" = true ∧
      read_wallets ["# note", " aBc "] = read_wallets [" aBc "] ∧
      pyStrip " aBc " ≠ "" ∧ pyStartsWith " aBc " "#" = false ∧
      read_wallets [" aBc "] =
        (if pyStartsWith (pyStrip " aBc ") "0x" then pyStrip " aBc "
          else "0x" ++ pyStrip " aBc ") :: read_wallets [] :=
  ⟨by decide,
    read_wallets_characterization.2.1 "# note" [" aBc "] (Or.inr (by decide)),
    by decide, by decide,
    read_wallets_characterization.2.2 " aBc " [] (by decide) (by decide)⟩

/-- C9 counterexample: in the end-to-end scenario the interrupted dict is
keyed by the wallet string as loaded (`"0xAAA"`, not lowercased), so the
lookup `interrupted["0xaaa"]` yields the empty list, not one entry. -/
theorem scenario_lowercase_key_empty :
    (runScenario.map fun s => (s.interrupted "0xaaa").length) = some 0 := by
  decide

/-- C9 amended: on wallets `["0xAAA","0xBBB"]` with the two scenario
transactions, `interrupted["0xAAA"]` (the original-case key) has exactly
one entry while `interrupted["0xaaa"]` is empty, the counterparty set of
`0xccc` is `{"0xaaa","0xbbb"}`, and at threshold 2 the Sybil table is the
single candidate `0xccc` with wallet count 2. -/
theorem scenario_end_to_end :
    (runScenario.map fun s => (s.interrupted "0xAAA").length) = some 1 ∧
      (runScenario.map fun s => (cpGet s.counterparties "0xccc").toFinset) =
        some ({"0xaaa", "0xbbb"} : Finset String) ∧
      (runScenario.map fun s => build_sybil_table s.counterparties 2) =
        some [{ address := "0xccc", wallet_count := 2, wallets := "0xaaa,0xbbb" }] := by
  decide

/-- C10: input wallets are themselves eligible counterparties: on
`inputCross`, wallet `0xAAA` (an input wallet) appears as the `to`
address of a transaction fetched for wallet `0xBBB`, so `0xaaa` is
entered into the counterparty index with `0xbbb` in its set, and at
threshold 1 it is emitted as a Sybil candidate — only the owning wallet
of the individual transaction was excluded. -/
theorem input_wallets_can_be_candidates :
    ((analyze_wallets inputCross).map
        fun s => (cpGet s.counterparties "0xaaa").toFinset) =
        some ({"0xbbb"} : Finset String) ∧
      ((analyze_wallets inputCross).map
          fun s => build_sybil_table s.counterparties 1) =
        some [{ address := "0xaaa", wallet_count := 1, wallets := "0xbbb" }] := by
  decide

end AddrCheck
